import Mathlib

/-!
# Monkey-Stock ledger engine: shallow embedding and verification

This file embeds the ledger engine of the Monkey-Stock trading bot
(`src/cogs/trading.py`, `src/monkey.py`, `src/cogs/profit.py`,
`src/cogs/settings.py`, `src/cogs/portfolio.py`, `src/database/schema.py`)
into Lean and proves/refutes the specification claims about it.

Modelling conventions:
* Monetary values (Python floats) are modelled as exact rationals `ℚ`;
  Python's `round(x, 2)` is modelled by `round2` below.
* The SQLite tables of `TradingDatabase` become lists inside a `TradingDatabase`
  structure; each SQL statement of `database/schema.py` becomes a pure function
  on that structure.
* Discord command handlers become pure functions
  `TradingDatabase → ... → Outcome × TradingDatabase`; the messages they send
  are abstracted into the `Outcome` inductive types.
* Random draws (`random.choice`, `random.randrange`, `random.randint`) are
  modelled by explicit natural-number oracle parameters reduced modulo the
  size of the sampled range, so every value the Python code can draw is
  representable and no other value is.
-/

namespace MonkeyStock

/-- Fee constant `HANDLING_FEE = 0.001425` (identical in `cogs/trading.py`
and `monkey.py`). -/
def HANDLING_FEE : ℚ := 1425 / 1000000

/-- Fee constant `MIN_FEE = 20`. -/
def MIN_FEE : ℚ := 20

/-- Fee constant `ST_TAX = 0.003`. -/
def ST_TAX : ℚ := 3 / 1000

/-- Python's `round(x, 2)`: round to two decimal places. -/
def round2 (q : ℚ) : ℚ := (round (q * 100) : ℚ) / 100

namespace TradingCog

/-- `TradingCog.calculate_buy_amount` from `cogs/trading.py`:
base plus the handling fee, with a 20-dollar minimum fee. -/
def calculate_buy_amount (shares : ℤ) (price : ℚ) : ℚ :=
  let base_amount : ℚ := shares * price
  let fee := round2 (base_amount * HANDLING_FEE)
  if fee < MIN_FEE then
    round2 (base_amount + MIN_FEE)
  else
    round2 (base_amount + fee)

/-- `TradingCog.calculate_sell_amount` from `cogs/trading.py`:
base minus securities-transaction tax minus the handling fee
(20-dollar minimum). -/
def calculate_sell_amount (shares : ℤ) (price : ℚ) : ℚ :=
  let base_amount : ℚ := shares * price
  let fee := round2 (base_amount * HANDLING_FEE)
  if fee < MIN_FEE then
    round2 (base_amount - (base_amount * ST_TAX) - MIN_FEE)
  else
    round2 (base_amount - base_amount * (HANDLING_FEE + ST_TAX))

end TradingCog

namespace MonkeyCog

/-- `MonkeyCog.calculate_buy_amount` from `monkey.py` (independent copy
of the trading-cog calculator, written with the conditional inside the
addition). -/
def calculate_buy_amount (shares : ℤ) (price : ℚ) : ℚ :=
  let base_amount : ℚ := shares * price
  let fee := round2 (base_amount * HANDLING_FEE)
  round2 (base_amount + (if fee < MIN_FEE then MIN_FEE else fee))

/-- `MonkeyCog.calculate_sell_amount` from `monkey.py` (independent copy;
the no-minimum-fee branch multiplies by `1 - HANDLING_FEE - ST_TAX`). -/
def calculate_sell_amount (shares : ℤ) (price : ℚ) : ℚ :=
  let base_amount : ℚ := shares * price
  let fee := round2 (base_amount * HANDLING_FEE)
  if fee < MIN_FEE then
    round2 (base_amount - (base_amount * ST_TAX) - MIN_FEE)
  else
    round2 (base_amount * (1 - HANDLING_FEE - ST_TAX))

end MonkeyCog

/-! ## Data model (`database/schema.py`)

Each SQLite table becomes a list of rows; `AUTOINCREMENT` ids and timestamps
carry no ledger information and are omitted.  Row order models insertion
order (`INSERT` appends at the end). -/

/-- A row of the `portfolio` table: one holding per `(user_id, stock_code)`. -/
structure Holding where
  user_id : String
  stock_code : String
  stock_name : String
  shares : ℤ
  total_cost : ℚ
deriving DecidableEq

/-- A row of the `transactions` table (append-only log). -/
structure Txn where
  user_id : String
  command : String
  transaction_type : String
  stock_code : String
  stock_name : String
  shares : ℤ
  price : ℚ
  amount : ℚ
  notes : Option String
deriving DecidableEq

/-- A row of the `profit_loss` table (append-only realized P&L). -/
structure PnLEntry where
  user_id : String
  stock_code : String
  stock_name : String
  shares : ℤ
  buy_price : ℚ
  sell_price : ℚ
  profit_loss : ℚ
  notes : Option String
deriving DecidableEq

/-- A row of the `user_settings` table. -/
structure UserSettings where
  user_id : String
  monkey_min_amount : ℤ
  monkey_max_amount : ℤ
  monkey_buy_weight : ℤ
  monkey_sell_weight : ℤ
  monkey_hold_weight : ℤ
deriving DecidableEq

/-- A row of the `pending_trades` table (`user_id` is its primary key). -/
structure PendingTrade where
  user_id : String
  stock_code : String
  stock_name : String
  shares : ℤ
  price : ℚ
  amount : ℚ
deriving DecidableEq

/-- A row of the `monkey_sell_state` table (`user_id` is its primary key). -/
structure SellState where
  user_id : String
  stock_code : String
  stock_name : String
  shares_to_sell : ℤ
  average_cost : ℚ
  channel_id : String
deriving DecidableEq

/-- The whole store managed by `TradingDatabase` in `database/schema.py`. -/
structure TradingDatabase where
  portfolio : List Holding
  transactions : List Txn
  profit_loss : List PnLEntry
  user_settings : List UserSettings
  pending_trades : List PendingTrade
  monkey_sell_state : List SellState
deriving DecidableEq

/-- The empty store (fresh database with all tables empty). -/
def TradingDatabase.empty : TradingDatabase := ⟨[], [], [], [], [], []⟩

/-- Default `user_settings` row (column defaults of the schema). -/
def defaultSettings (uid : String) : UserSettings :=
  ⟨uid, 5000, 100000, 35, 30, 35⟩

namespace TradingDatabase

/-- `get_portfolio`: the user's rows with `shares > 0`.
(The SQL `ORDER BY stock_code` is omitted: the model's only consumer picks
an arbitrary element via an oracle index, so ordering is immaterial.) -/
def get_portfolio (db : TradingDatabase) (uid : String) : List Holding :=
  db.portfolio.filter fun h => decide (h.user_id = uid ∧ 0 < h.shares)

/-- `get_stock_holding`: first row matching the user and stock code. -/
def get_stock_holding (db : TradingDatabase) (uid code : String) : Option Holding :=
  db.portfolio.find? fun h => decide (h.user_id = uid ∧ h.stock_code = code)

/-- `update_portfolio`: add share/cost deltas to an existing row, or insert a
new row holding exactly the deltas.  The SQL `UPDATE ... WHERE user_id AND
stock_code` touches every matching row and leaves `stock_name` unchanged. -/
def update_portfolio (db : TradingDatabase) (uid code name : String)
    (shares_delta : ℤ) (cost_delta : ℚ) : TradingDatabase :=
  match db.get_stock_holding uid code with
  | some _ =>
      { db with portfolio := db.portfolio.map fun h =>
          if h.user_id = uid ∧ h.stock_code = code then
            { h with shares := h.shares + shares_delta,
                     total_cost := h.total_cost + cost_delta }
          else h }
  | none =>
      { db with portfolio := db.portfolio ++ [⟨uid, code, name, shares_delta, cost_delta⟩] }

/-- `adjust_cost`: set `total_cost := new_avg_cost * shares` on the holding;
returns whether a holding existed. -/
def adjust_cost (db : TradingDatabase) (uid code : String) (new_avg_cost : ℚ) :
    Bool × TradingDatabase :=
  match db.get_stock_holding uid code with
  | none => (false, db)
  | some h =>
      (true, { db with portfolio := db.portfolio.map fun g =>
          if g.user_id = uid ∧ g.stock_code = code then
            { g with total_cost := new_avg_cost * h.shares }
          else g })

/-- `log_transaction`: append one row to the `transactions` table. -/
def log_transaction (db : TradingDatabase) (uid command ttype code name : String)
    (shares : ℤ) (price amount : ℚ) (notes : Option String) : TradingDatabase :=
  { db with transactions :=
      db.transactions ++ [⟨uid, command, ttype, code, name, shares, price, amount, notes⟩] }

/-- `record_profit_loss`: append one row to the `profit_loss` table. -/
def record_profit_loss (db : TradingDatabase) (uid code name : String)
    (shares : ℤ) (buy_price sell_price pl : ℚ) (notes : Option String) :
    TradingDatabase :=
  { db with profit_loss :=
      db.profit_loss ++ [⟨uid, code, name, shares, buy_price, sell_price, pl, notes⟩] }

/-- `get_total_profit_loss`: `SUM(profit_loss)` over the user's rows
(`COALESCE` makes the empty sum `0`). -/
def get_total_profit_loss (db : TradingDatabase) (uid : String) : ℚ :=
  ((db.profit_loss.filter fun e => e.user_id == uid).map PnLEntry.profit_loss).sum

/-- `clear_profit_loss`: when the user's total is nonzero, append one
offsetting `SYSTEM` row; always return the pre-clear total. -/
def clear_profit_loss (db : TradingDatabase) (uid : String) : ℚ × TradingDatabase :=
  let total := db.get_total_profit_loss uid
  if total ≠ 0 then
    (total, db.record_profit_loss uid "SYSTEM" "損益歸零" 0 0 0 (-total) (some "清空損益紀錄"))
  else
    (total, db)

/-- `get_user_settings`: get-or-create-default; returns the row together with
the possibly-extended store. -/
def get_user_settings (db : TradingDatabase) (uid : String) :
    UserSettings × TradingDatabase :=
  match db.user_settings.find? (fun s => s.user_id == uid) with
  | some s => (s, db)
  | none =>
      (defaultSettings uid,
       { db with user_settings := db.user_settings ++ [defaultSettings uid] })

/-- `save_pending_trade`: `INSERT OR REPLACE` keyed by `user_id`. -/
def save_pending_trade (db : TradingDatabase) (uid code name : String)
    (shares : ℤ) (price amount : ℚ) : TradingDatabase :=
  { db with pending_trades :=
      (db.pending_trades.filter fun t => t.user_id != uid)
        ++ [⟨uid, code, name, shares, price, amount⟩] }

/-- `get_pending_trade`. -/
def get_pending_trade (db : TradingDatabase) (uid : String) : Option PendingTrade :=
  db.pending_trades.find? fun t => t.user_id == uid

/-- `delete_pending_trade`. -/
def delete_pending_trade (db : TradingDatabase) (uid : String) : TradingDatabase :=
  { db with pending_trades := db.pending_trades.filter fun t => t.user_id != uid }

/-- `save_monkey_sell_state`: `INSERT OR REPLACE` keyed by `user_id`. -/
def save_monkey_sell_state (db : TradingDatabase) (uid code name : String)
    (shares_to_sell : ℤ) (average_cost : ℚ) (channel_id : String) : TradingDatabase :=
  { db with monkey_sell_state :=
      (db.monkey_sell_state.filter fun t => t.user_id != uid)
        ++ [⟨uid, code, name, shares_to_sell, average_cost, channel_id⟩] }

/-- `get_monkey_sell_state`. -/
def get_monkey_sell_state (db : TradingDatabase) (uid : String) : Option SellState :=
  db.monkey_sell_state.find? fun t => t.user_id == uid

/-- `delete_monkey_sell_state`. -/
def delete_monkey_sell_state (db : TradingDatabase) (uid : String) : TradingDatabase :=
  { db with monkey_sell_state := db.monkey_sell_state.filter fun t => t.user_id != uid }

end TradingDatabase

/-! ## Command layer

The Discord command handlers, as pure state transformers.  Stock-catalog
lookup (`stock_utils.get_stock_info`) is peripheral glue: the handlers below
receive the already-resolved `(stock_code, stock_name)` pair, and the price
oracle (`stock_utils.get_stock_price`) is passed in as `oracle_price`. -/

open TradingDatabase

/-- Result of the `!buy` command. -/
inductive BuyOutcome where
  | invalidShares
  | invalidPrice
  | priceUnavailable
  | ok (price amount : ℚ)
deriving DecidableEq

/-- Shared tail of `!buy`: compute cost, update portfolio, log. -/
def execBuy (db : TradingDatabase) (uid code name : String) (shares : ℤ)
    (price : ℚ) (price_source : String) : BuyOutcome × TradingDatabase :=
  let buy_amount := TradingCog.calculate_buy_amount shares price
  let db1 := db.update_portfolio uid code name shares buy_amount
  let db2 := db1.log_transaction uid "!buy" "買入" code name shares price buy_amount
      (some price_source)
  (.ok price buy_amount, db2)

/-- `TradingCog.buy_stock` (`cogs/trading.py`): validate the share count and
the price, then buy. -/
def buy_stock (db : TradingDatabase) (uid code name : String) (shares_to_buy : ℤ)
    (custom_price : Option ℚ) (oracle_price : ℚ) : BuyOutcome × TradingDatabase :=
  if shares_to_buy ≤ 0 then (.invalidShares, db)
  else
    match custom_price with
    | some cp =>
        if cp ≤ 0 then (.invalidPrice, db)
        else execBuy db uid code name shares_to_buy cp "(自訂價格)"
    | none =>
        if oracle_price ≤ 0 then (.priceUnavailable, db)
        else execBuy db uid code name shares_to_buy oracle_price "(即時市價)"

/-- Result of the `!sell` command. -/
inductive SellOutcome where
  | invalidShares
  | insufficientHoldings (current requested : ℤ)
  | invalidPrice
  | priceUnavailable
  | ok (price avg_cost proceeds pl : ℚ)
deriving DecidableEq

/-- Shared tail of `!sell`: average cost captured before mutation, proceeds,
P&L, portfolio update by minus-cost-basis, log and P&L record. -/
def execSell (db : TradingDatabase) (uid code name : String) (holding : Holding)
    (shares_to_sell : ℤ) (price : ℚ) (price_source : String) :
    SellOutcome × TradingDatabase :=
  let average_cost_price := holding.total_cost / holding.shares
  let sell_amount := TradingCog.calculate_sell_amount shares_to_sell price
  let cost_basis := average_cost_price * shares_to_sell
  let profit_loss := round2 (sell_amount - cost_basis)
  let db1 := db.update_portfolio uid code name (-shares_to_sell) (-cost_basis)
  let db2 := db1.log_transaction uid "!sell" "賣出" code name (-shares_to_sell)
      price sell_amount (some price_source)
  let db3 := db2.record_profit_loss uid code name shares_to_sell
      average_cost_price price profit_loss none
  (.ok price average_cost_price sell_amount profit_loss, db3)

/-- `TradingCog.sell_stock` (`cogs/trading.py`): validate shares, check
holdings, validate price, then sell. -/
def sell_stock (db : TradingDatabase) (uid code name : String) (shares_to_sell : ℤ)
    (custom_price : Option ℚ) (oracle_price : ℚ) : SellOutcome × TradingDatabase :=
  if shares_to_sell ≤ 0 then (.invalidShares, db)
  else
    match db.get_stock_holding uid code with
    | none => (.insufficientHoldings 0 shares_to_sell, db)
    | some holding =>
        if holding.shares < shares_to_sell then
          (.insufficientHoldings holding.shares shares_to_sell, db)
        else
          match custom_price with
          | some cp =>
              if cp ≤ 0 then (.invalidPrice, db)
              else execSell db uid code name holding shares_to_sell cp "(自訂價格)"
          | none =>
              if oracle_price ≤ 0 then (.priceUnavailable, db)
              else execSell db uid code name holding shares_to_sell oracle_price "(即時市價)"

/-- Result of the `!random` proposal command. -/
inductive RandomOutcome where
  | alreadyPending
  | priceUnavailable
  | budgetTooSmall (amount : ℚ)
  | proposed (shares : ℤ) (amount total : ℚ)
deriving DecidableEq

/-- `TradingCog.random_stock` (`cogs/trading.py`): propose a random buy.
`code`/`name` stand for the `random.choice` over the catalog, `oracle_price`
for the quote API, and `amountDraw` for `random.randrange(5000, 100001, 1000)`
(whose 96 possible values are `5000 + 1000*k`, `k < 96`). -/
def random_stock (db : TradingDatabase) (uid code name : String)
    (oracle_price : ℚ) (amountDraw : ℕ) : RandomOutcome × TradingDatabase :=
  match db.get_pending_trade uid with
  | some _ => (.alreadyPending, db)
  | none =>
      if oracle_price ≤ 0 then (.priceUnavailable, db)
      else
        let amount : ℚ := 5000 + 1000 * ((amountDraw % 96 : ℕ) : ℚ)
        let shares : ℤ := ⌊amount / oracle_price⌋
        if shares = 0 then (.budgetTooSmall amount, db)
        else
          let total := TradingCog.calculate_buy_amount shares oracle_price
          (.proposed shares amount total,
           db.save_pending_trade uid code name shares oracle_price total)

/-- Result of `!ry` / `!rn`. -/
inductive ResolveOutcome where
  | noPendingTrade
  | resolved (t : PendingTrade)
deriving DecidableEq

/-- `TradingCog.confirm_random` (`!ry`): execute the pending buy, log it,
delete the pending trade. -/
def confirm_random (db : TradingDatabase) (uid : String) :
    ResolveOutcome × TradingDatabase :=
  match db.get_pending_trade uid with
  | none => (.noPendingTrade, db)
  | some t =>
      let db1 := db.update_portfolio uid t.stock_code t.stock_name t.shares t.amount
      let db2 := db1.log_transaction uid "!random -> !ry" "買入" t.stock_code
          t.stock_name t.shares t.price t.amount none
      let db3 := db2.delete_pending_trade uid
      (.resolved t, db3)

/-- `TradingCog.cancel_random` (`!rn`): just delete the pending trade. -/
def cancel_random (db : TradingDatabase) (uid : String) :
    ResolveOutcome × TradingDatabase :=
  match db.get_pending_trade uid with
  | none => (.noPendingTrade, db)
  | some t => (.resolved t, db.delete_pending_trade uid)

/-- Result of `!adjust_cost`. -/
inductive AdjustOutcome where
  | invalidCost
  | noSuchHolding
  | adjusted (old_avg new_avg : ℚ)
deriving DecidableEq

/-- `PortfolioCog.adjust_cost` (`cogs/portfolio.py`): validate the new cost,
require a positive-share holding, then rewrite `total_cost` and log. -/
def adjust_cost_cmd (db : TradingDatabase) (uid code name : String)
    (new_cost : ℚ) : AdjustOutcome × TradingDatabase :=
  if new_cost ≤ 0 then (.invalidCost, db)
  else
    match db.get_stock_holding uid code with
    | none => (.noSuchHolding, db)
    | some holding =>
        if holding.shares ≤ 0 then (.noSuchHolding, db)
        else
          let old_avg_cost := holding.total_cost / holding.shares
          let db1 := (db.adjust_cost uid code new_cost).2
          let db2 := db1.log_transaction uid "!adjust_cost" "調整成本" code name 0 0 0
              (some "調整均價")
          (.adjusted old_avg_cost new_cost, db2)

/-! ## Auto-trader (`monkey.py`) -/

/-- The three weighted-random actions of `!monkey`. -/
inductive MonkeyAction where
  | buy
  | sell
  | hold
deriving DecidableEq

/-- Result of the `!monkey` command and of the settlement price handler. -/
inductive MonkeyOutcome where
  | alreadySelling
  | invalidRange
  | rangeTooSmall
  | buyPriceUnavailable
  | buyBudgetTooSmall (amount : ℤ)
  | bought (shares : ℤ) (price amount : ℚ)
  | held
  | sellNoHoldings
  | sellProposed (code : String) (shares_to_sell : ℤ) (average_cost : ℚ)
deriving DecidableEq

/-- `MonkeyCog._execute_monkey_buy`: random stock (`code`/`name`), oracle
price, budget from `random.randrange(min_amount, max_amount + 1, 1000)`
modelled by `amountDraw` over its `(mx - mn) / 1000 + 1` possible values. -/
def execute_monkey_buy (db : TradingDatabase) (uid code name : String)
    (oracle_price : ℚ) (mn mx : ℤ) (amountDraw : ℕ) :
    MonkeyOutcome × TradingDatabase :=
  if oracle_price ≤ 0 then (.buyPriceUnavailable, db)
  else
    let amount : ℤ := mn + 1000 * (amountDraw % ((mx - mn) / 1000 + 1).toNat)
    let shares : ℤ := ⌊(amount : ℚ) / oracle_price⌋
    if shares = 0 then (.buyBudgetTooSmall amount, db)
    else
      let buy_amount := MonkeyCog.calculate_buy_amount shares oracle_price
      let db1 := db.update_portfolio uid code name shares buy_amount
      let db2 := db1.log_transaction uid "!monkey" "買入" code name shares
          oracle_price buy_amount (some "猴子自動買入")
      (.bought shares oracle_price buy_amount, db2)

/-- `MonkeyCog._execute_monkey_sell`: pick one positive-share holding
(`random.choice` modelled by `pickIdx`), draw `shares_to_sell` from
`random.randint(1, shares_held)` (modelled by `sharesDraw`), capture the
average cost, and persist a `monkey_sell_state` row — the sell itself is
deferred to the price-input handler. -/
def execute_monkey_sell (db : TradingDatabase) (uid : String)
    (pickIdx sharesDraw : ℕ) (channel : String) : MonkeyOutcome × TradingDatabase :=
  match db.get_portfolio uid with
  | [] => (.sellNoHoldings, db)
  | hd :: tl =>
      let holding := (hd :: tl).get ⟨pickIdx % (hd :: tl).length,
        Nat.mod_lt _ (Nat.succ_pos _)⟩
      let shares_held := holding.shares
      let shares_to_sell : ℤ := 1 + (sharesDraw : ℤ) % shares_held
      let average_cost := holding.total_cost / shares_held
      let db1 := db.save_monkey_sell_state uid holding.stock_code
          holding.stock_name shares_to_sell average_cost channel
      (.sellProposed holding.stock_code shares_to_sell average_cost, db1)

/-- Dispatch of the chosen action inside `!monkey`.  The weighted
`random.choices` draw is modelled by the `action` oracle; when the user holds
no positive-share position the code forces the weights to buy-only, so the
oracle is overridden to `buy` in that case. -/
def monkey_dispatch (db : TradingDatabase) (uid : String) (action : MonkeyAction)
    (code name : String) (oracle_price : ℚ) (mn mx : ℤ)
    (amountDraw pickIdx sharesDraw : ℕ) (channel : String) :
    MonkeyOutcome × TradingDatabase :=
  let has_inventory := db.get_portfolio uid ≠ []
  let chosen := if has_inventory then action else .buy
  match chosen with
  | .buy => execute_monkey_buy db uid code name oracle_price mn mx amountDraw
  | .hold => (.held, db)
  | .sell => execute_monkey_sell db uid pickIdx sharesDraw channel

/-- `MonkeyCog.monkey_trade` (`!monkey`): refuse while a settlement is
pending, load (or default-create) the user settings, validate caller-supplied
amount bounds when both are given, then dispatch the weighted-random action.
The daily-cooldown branch is dead code (`self.cooldown_enabled = False`). -/
def monkey_trade (db : TradingDatabase) (uid : String) (bounds : Option (ℤ × ℤ))
    (action : MonkeyAction) (code name : String) (oracle_price : ℚ)
    (amountDraw pickIdx sharesDraw : ℕ) (channel : String) :
    MonkeyOutcome × TradingDatabase :=
  match db.get_monkey_sell_state uid with
  | some _ => (.alreadySelling, db)
  | none =>
      let sdb := db.get_user_settings uid
      match bounds with
      | some (mn, mx) =>
          if mn < 0 ∨ mx < 0 ∨ mx ≤ mn then (.invalidRange, sdb.2)
          else if mx - mn < 1000 then (.rangeTooSmall, sdb.2)
          else monkey_dispatch sdb.2 uid action code name oracle_price mn mx
              amountDraw pickIdx sharesDraw channel
      | none =>
          monkey_dispatch sdb.2 uid action code name oracle_price
              sdb.1.monkey_min_amount sdb.1.monkey_max_amount
              amountDraw pickIdx sharesDraw channel

/-- The `!monkey` sell flow as reachable in the source: the pending-settlement
check of `monkey_trade` followed by `_execute_monkey_sell` (the sell action is
only drawable when the user has inventory). -/
def monkey_sell_flow (db : TradingDatabase) (uid : String)
    (pickIdx sharesDraw : ℕ) (channel : String) : MonkeyOutcome × TradingDatabase :=
  match db.get_monkey_sell_state uid with
  | some _ => (.alreadySelling, db)
  | none => execute_monkey_sell db uid pickIdx sharesDraw channel

/-- Result of `MonkeyCog.process_monkey_sell_price`. -/
inductive SettleOutcome where
  | notSelling
  | formatError
  | invalidPrice
  | internalError
  | sold (price proceeds pl : ℚ)
deriving DecidableEq

/-- `MonkeyCog.process_monkey_sell_price` (`monkey.py`): handle the user's
next chat message while a `monkey_sell_state` row exists.  `content` is the
result of `float(message.content)` (`none` for a `ValueError`).  `ioFail`
models an exception thrown inside the `try` block after the price check (the
`message.add_reaction` call, which precedes every store mutation); the
`except Exception` handler deletes the sell state and reports an error. -/
def process_monkey_sell_price (db : TradingDatabase) (uid : String)
    (content : Option ℚ) (ioFail : Bool) : SettleOutcome × TradingDatabase :=
  match db.get_monkey_sell_state uid with
  | none => (.notSelling, db)
  | some st =>
      match content with
      | none => (.formatError, db)
      | some price =>
          if price ≤ 0 then (.invalidPrice, db)
          else if ioFail then (.internalError, db.delete_monkey_sell_state uid)
          else
            let sell_amount := MonkeyCog.calculate_sell_amount st.shares_to_sell price
            let profit_loss := round2 (sell_amount - st.average_cost * st.shares_to_sell)
            let cost_basis := st.average_cost * st.shares_to_sell
            let db1 := db.update_portfolio uid st.stock_code st.stock_name
                (-st.shares_to_sell) (-cost_basis)
            let db2 := db1.log_transaction uid "!monkey" "賣出" st.stock_code
                st.stock_name (-st.shares_to_sell) price sell_amount (some "猴子自動賣出")
            let db3 := db2.record_profit_loss uid st.stock_code st.stock_name
                st.shares_to_sell st.average_cost price profit_loss (some "猴子交易")
            let db4 := db3.delete_monkey_sell_state uid
            (.sold price sell_amount profit_loss, db4)

/-- The `!usersetting amount <min> <max>` validation from `cogs/settings.py`
(the UserSettings bounds contract). -/
def usersetting_amount_ok (mn mx : ℤ) : Bool :=
  if mn < 1000 ∨ mx < 1000 then false
  else if mx ≤ mn then false
  else if mx - mn < 1000 then false
  else true

/-! ## Operation sequences over the ledger

For the invariant claims we close the position-touching operations under
sequencing.  Besides Buy, Sell, AdjustCost, ConfirmPendingTrade and the
settlement price-input listed by the spec, the two proposal operations that
create the transient `Pending*` rows are included, since confirm and
settlement act on rows that only those proposals create. -/

/-- One ledger operation (random draws as explicit oracle data). -/
inductive Op where
  | buyOp (uid code name : String) (shares : ℤ) (price : ℚ)
  | sellOp (uid code name : String) (shares : ℤ) (price : ℚ)
  | adjustOp (uid code name : String) (newCost : ℚ)
  | proposeOp (uid code name : String) (price : ℚ) (amountDraw : ℕ)
  | confirmOp (uid : String)
  | monkeySellOp (uid : String) (pickIdx sharesDraw : ℕ) (channel : String)
  | settleOp (uid : String) (content : Option ℚ) (ioFail : Bool)
deriving DecidableEq

/-- Apply one operation to the store (buy/sell at a user-supplied price). -/
def Op.apply (db : TradingDatabase) : Op → TradingDatabase
  | .buyOp uid code name s p => (buy_stock db uid code name s (some p) 0).2
  | .sellOp uid code name s p => (sell_stock db uid code name s (some p) 0).2
  | .adjustOp uid code name c => (adjust_cost_cmd db uid code name c).2
  | .proposeOp uid code name p k => (random_stock db uid code name p k).2
  | .confirmOp uid => (confirm_random db uid).2
  | .monkeySellOp uid i j ch => (monkey_sell_flow db uid i j ch).2
  | .settleOp uid c f => (process_monkey_sell_price db uid c f).2

/-- Run a sequence of operations from the empty store. -/
def runOps (ops : List Op) : TradingDatabase :=
  ops.foldl Op.apply TradingDatabase.empty

/-- Guard for a settlement step: the pending sell must still be covered by
the current position when the settlement actually executes.  Every other
operation is unguarded. -/
def Op.settleGuard (db : TradingDatabase) : Op → Prop
  | .settleOp uid content ioFail =>
      match db.get_monkey_sell_state uid, content with
      | some st, some price =>
          0 < price → ioFail = false →
            match db.get_stock_holding uid st.stock_code with
            | some h => st.shares_to_sell ≤ h.shares
            | none => False
      | _, _ => True
  | _ => True

/-- A run in which every settlement step is covered (see `Op.settleGuard`). -/
def GuardedRun : TradingDatabase → List Op → Prop
  | _, [] => True
  | db, op :: rest => Op.settleGuard db op ∧ GuardedRun (Op.apply db op) rest

/-- No two portfolio rows share the `(user_id, stock_code)` key
(the schema's `UNIQUE(user_id, stock_code)` constraint). -/
def keysUnique (l : List Holding) : Prop :=
  l.Pairwise fun a b => a.user_id ≠ b.user_id ∨ a.stock_code ≠ b.stock_code

/-- The inductive store invariant: nonnegative position shares, unique
position keys, and positive share counts in both transient tables. -/
def Inv (db : TradingDatabase) : Prop :=
  (∀ g ∈ db.portfolio, 0 ≤ g.shares) ∧
  keysUnique db.portfolio ∧
  (∀ t ∈ db.pending_trades, 1 ≤ t.shares) ∧
  (∀ s ∈ db.monkey_sell_state, 1 ≤ s.shares_to_sell)

/-! ## Store helper lemmas -/

lemma log_transaction_fields (db : TradingDatabase) (uid command ttype code name : String)
    (s : ℤ) (p a : ℚ) (n : Option String) :
    (db.log_transaction uid command ttype code name s p a n).portfolio = db.portfolio ∧
    (db.log_transaction uid command ttype code name s p a n).profit_loss = db.profit_loss ∧
    (db.log_transaction uid command ttype code name s p a n).pending_trades = db.pending_trades ∧
    (db.log_transaction uid command ttype code name s p a n).monkey_sell_state = db.monkey_sell_state :=
  ⟨rfl, rfl, rfl, rfl⟩

lemma update_portfolio_fields (db : TradingDatabase) (uid code name : String)
    (δ : ℤ) (κ : ℚ) :
    (db.update_portfolio uid code name δ κ).transactions = db.transactions ∧
    (db.update_portfolio uid code name δ κ).profit_loss = db.profit_loss ∧
    (db.update_portfolio uid code name δ κ).pending_trades = db.pending_trades ∧
    (db.update_portfolio uid code name δ κ).monkey_sell_state = db.monkey_sell_state := by
  cases hh : db.get_stock_holding uid code <;>
    simp [TradingDatabase.update_portfolio, hh]

lemma get_user_settings_fields (db : TradingDatabase) (uid : String) :
    (db.get_user_settings uid).2.portfolio = db.portfolio ∧
    (db.get_user_settings uid).2.transactions = db.transactions ∧
    (db.get_user_settings uid).2.profit_loss = db.profit_loss ∧
    (db.get_user_settings uid).2.pending_trades = db.pending_trades ∧
    (db.get_user_settings uid).2.monkey_sell_state = db.monkey_sell_state := by
  cases hh : db.user_settings.find? (fun s => s.user_id == uid) <;>
    simp [TradingDatabase.get_user_settings, hh]

@[simp] lemma update_portfolio_transactions (db : TradingDatabase) (uid code name : String)
    (δ : ℤ) (κ : ℚ) :
    (db.update_portfolio uid code name δ κ).transactions = db.transactions :=
  (update_portfolio_fields db uid code name δ κ).1

@[simp] lemma update_portfolio_profit_loss (db : TradingDatabase) (uid code name : String)
    (δ : ℤ) (κ : ℚ) :
    (db.update_portfolio uid code name δ κ).profit_loss = db.profit_loss :=
  (update_portfolio_fields db uid code name δ κ).2.1

@[simp] lemma update_portfolio_pending_trades (db : TradingDatabase) (uid code name : String)
    (δ : ℤ) (κ : ℚ) :
    (db.update_portfolio uid code name δ κ).pending_trades = db.pending_trades :=
  (update_portfolio_fields db uid code name δ κ).2.2.1

@[simp] lemma update_portfolio_monkey_sell_state (db : TradingDatabase) (uid code name : String)
    (δ : ℤ) (κ : ℚ) :
    (db.update_portfolio uid code name δ κ).monkey_sell_state = db.monkey_sell_state :=
  (update_portfolio_fields db uid code name δ κ).2.2.2

@[simp] lemma adjust_cost_snd_fields (db : TradingDatabase) (uid code : String) (c : ℚ) :
    (db.adjust_cost uid code c).2.transactions = db.transactions ∧
    (db.adjust_cost uid code c).2.pending_trades = db.pending_trades ∧
    (db.adjust_cost uid code c).2.monkey_sell_state = db.monkey_sell_state := by
  cases hh : db.get_stock_holding uid code <;>
    simp [TradingDatabase.adjust_cost, hh]

@[simp] lemma log_transaction_portfolio (db : TradingDatabase) (u c t sc sn : String)
    (s : ℤ) (p a : ℚ) (n : Option String) :
    (db.log_transaction u c t sc sn s p a n).portfolio = db.portfolio := rfl

@[simp] lemma log_transaction_profit_loss (db : TradingDatabase) (u c t sc sn : String)
    (s : ℤ) (p a : ℚ) (n : Option String) :
    (db.log_transaction u c t sc sn s p a n).profit_loss = db.profit_loss := rfl

@[simp] lemma log_transaction_pending_trades (db : TradingDatabase) (u c t sc sn : String)
    (s : ℤ) (p a : ℚ) (n : Option String) :
    (db.log_transaction u c t sc sn s p a n).pending_trades = db.pending_trades := rfl

@[simp] lemma log_transaction_monkey_sell_state (db : TradingDatabase) (u c t sc sn : String)
    (s : ℤ) (p a : ℚ) (n : Option String) :
    (db.log_transaction u c t sc sn s p a n).monkey_sell_state = db.monkey_sell_state := rfl

@[simp] lemma record_profit_loss_portfolio (db : TradingDatabase) (u sc sn : String)
    (s : ℤ) (bp sp pl : ℚ) (n : Option String) :
    (db.record_profit_loss u sc sn s bp sp pl n).portfolio = db.portfolio := rfl

@[simp] lemma record_profit_loss_pending_trades (db : TradingDatabase) (u sc sn : String)
    (s : ℤ) (bp sp pl : ℚ) (n : Option String) :
    (db.record_profit_loss u sc sn s bp sp pl n).pending_trades = db.pending_trades := rfl

@[simp] lemma record_profit_loss_monkey_sell_state (db : TradingDatabase) (u sc sn : String)
    (s : ℤ) (bp sp pl : ℚ) (n : Option String) :
    (db.record_profit_loss u sc sn s bp sp pl n).monkey_sell_state = db.monkey_sell_state := rfl

@[simp] lemma save_pending_trade_portfolio (db : TradingDatabase) (u sc sn : String)
    (s : ℤ) (p a : ℚ) :
    (db.save_pending_trade u sc sn s p a).portfolio = db.portfolio := rfl

@[simp] lemma save_pending_trade_monkey_sell_state (db : TradingDatabase) (u sc sn : String)
    (s : ℤ) (p a : ℚ) :
    (db.save_pending_trade u sc sn s p a).monkey_sell_state = db.monkey_sell_state := rfl

@[simp] lemma delete_pending_trade_portfolio (db : TradingDatabase) (u : String) :
    (db.delete_pending_trade u).portfolio = db.portfolio := rfl

@[simp] lemma delete_pending_trade_monkey_sell_state (db : TradingDatabase) (u : String) :
    (db.delete_pending_trade u).monkey_sell_state = db.monkey_sell_state := rfl

@[simp] lemma save_monkey_sell_state_portfolio (db : TradingDatabase) (u sc sn : String)
    (s : ℤ) (a : ℚ) (ch : String) :
    (db.save_monkey_sell_state u sc sn s a ch).portfolio = db.portfolio := rfl

@[simp] lemma save_monkey_sell_state_pending_trades (db : TradingDatabase) (u sc sn : String)
    (s : ℤ) (a : ℚ) (ch : String) :
    (db.save_monkey_sell_state u sc sn s a ch).pending_trades = db.pending_trades := rfl

@[simp] lemma delete_monkey_sell_state_portfolio (db : TradingDatabase) (u : String) :
    (db.delete_monkey_sell_state u).portfolio = db.portfolio := rfl

@[simp] lemma delete_monkey_sell_state_pending_trades (db : TradingDatabase) (u : String) :
    (db.delete_monkey_sell_state u).pending_trades = db.pending_trades := rfl

@[simp] lemma get_user_settings_snd_portfolio (db : TradingDatabase) (uid : String) :
    (db.get_user_settings uid).2.portfolio = db.portfolio :=
  (get_user_settings_fields db uid).1

@[simp] lemma get_user_settings_snd_pending_trades (db : TradingDatabase) (uid : String) :
    (db.get_user_settings uid).2.pending_trades = db.pending_trades :=
  (get_user_settings_fields db uid).2.2.2.1

@[simp] lemma get_user_settings_snd_monkey_sell_state (db : TradingDatabase) (uid : String) :
    (db.get_user_settings uid).2.monkey_sell_state = db.monkey_sell_state :=
  (get_user_settings_fields db uid).2.2.2.2

@[simp] lemma delete_monkey_sell_state_transactions (db : TradingDatabase) (u : String) :
    (db.delete_monkey_sell_state u).transactions = db.transactions := rfl

@[simp] lemma delete_monkey_sell_state_profit_loss (db : TradingDatabase) (u : String) :
    (db.delete_monkey_sell_state u).profit_loss = db.profit_loss := rfl

@[simp] lemma delete_pending_trade_transactions (db : TradingDatabase) (u : String) :
    (db.delete_pending_trade u).transactions = db.transactions := rfl

@[simp] lemma delete_pending_trade_profit_loss (db : TradingDatabase) (u : String) :
    (db.delete_pending_trade u).profit_loss = db.profit_loss := rfl

/-- Keyed position lookup only depends on the portfolio table. -/
lemma get_stock_holding_portfolio_congr (db1 db2 : TradingDatabase)
    (h : db1.portfolio = db2.portfolio) (uid code : String) :
    db1.get_stock_holding uid code = db2.get_stock_holding uid code := by
  simp [TradingDatabase.get_stock_holding, h]

/-- Deleting by key makes the keyed lookup fail (pending trades). -/
lemma get_pending_trade_delete (db : TradingDatabase) (uid : String) :
    (db.delete_pending_trade uid).get_pending_trade uid = none := by
  simp only [TradingDatabase.delete_pending_trade, TradingDatabase.get_pending_trade]
  rw [List.find?_eq_none]
  intro t ht
  have := (List.mem_filter.mp ht).2
  simpa using this

/-- Deleting by key makes the keyed lookup fail (monkey sell state). -/
lemma get_monkey_sell_state_delete (db : TradingDatabase) (uid : String) :
    (db.delete_monkey_sell_state uid).get_monkey_sell_state uid = none := by
  simp only [TradingDatabase.delete_monkey_sell_state, TradingDatabase.get_monkey_sell_state]
  rw [List.find?_eq_none]
  intro t ht
  have := (List.mem_filter.mp ht).2
  simpa using this

/-- Updating a found holding updates exactly its shares/total_cost in the
keyed lookup. -/
lemma get_stock_holding_update_found
    (db : TradingDatabase) (uid code name : String) (δ : ℤ) (κ : ℚ) (h : Holding)
    (hh : db.get_stock_holding uid code = some h) :
    (db.update_portfolio uid code name δ κ).get_stock_holding uid code
      = some { h with shares := h.shares + δ, total_cost := h.total_cost + κ } := by
  have hkey : h.user_id = uid ∧ h.stock_code = code := by
    simpa using List.find?_some hh
  unfold TradingDatabase.update_portfolio
  rw [hh]
  unfold TradingDatabase.get_stock_holding at hh ⊢
  simp only [List.find?_map]
  have hfun : ((fun g : Holding => decide (g.user_id = uid ∧ g.stock_code = code)) ∘
      (fun g : Holding => if g.user_id = uid ∧ g.stock_code = code then
        { g with shares := g.shares + δ, total_cost := g.total_cost + κ } else g))
      = fun g : Holding => decide (g.user_id = uid ∧ g.stock_code = code) := by
    funext g
    by_cases hg : g.user_id = uid ∧ g.stock_code = code
    · simp [hg]
    · rw [Function.comp_apply, if_neg hg]
  rw [hfun, hh]
  simp [hkey]

/-- With unique keys, any row matching a successful keyed lookup is that
row. -/
lemma holding_eq_of_find? {l : List Holding} (hU : keysUnique l) {uid code : String}
    {h : Holding}
    (hf : l.find? (fun g => decide (g.user_id = uid ∧ g.stock_code = code)) = some h)
    {a : Holding} (ha : a ∈ l) (hau : a.user_id = uid) (hac : a.stock_code = code) :
    a = h := by
  have hmem := List.mem_of_find?_eq_some hf
  have hpred : h.user_id = uid ∧ h.stock_code = code := by
    simpa using List.find?_some hf
  by_contra hne
  have hsymm : Symmetric (fun a b : Holding =>
      a.user_id ≠ b.user_id ∨ a.stock_code ≠ b.stock_code) := by
    intro x y hxy
    rcases hxy with h1 | h2
    · exact Or.inl (Ne.symm h1)
    · exact Or.inr (Ne.symm h2)
  rcases (hU.forall hsymm) ha hmem hne with h1 | h2
  · exact h1 (hau.trans hpred.1.symm)
  · exact h2 (hac.trans hpred.2.symm)

/-- `update_portfolio` keeps all share counts nonnegative, provided the
targeted row stays nonnegative. -/
lemma update_portfolio_nonneg
    (db : TradingDatabase) (uid code name : String) (δ : ℤ) (κ : ℚ)
    (hN : ∀ g ∈ db.portfolio, 0 ≤ g.shares)
    (hU : keysUnique db.portfolio)
    (hok : ∀ h, db.get_stock_holding uid code = some h → 0 ≤ h.shares + δ)
    (hok0 : db.get_stock_holding uid code = none → 0 ≤ δ) :
    ∀ g ∈ (db.update_portfolio uid code name δ κ).portfolio, 0 ≤ g.shares := by
  intro g hg
  unfold TradingDatabase.update_portfolio at hg
  cases hh : db.get_stock_holding uid code with
  | some h =>
      rw [hh] at hg
      simp only [List.mem_map] at hg
      obtain ⟨a, ha, rfl⟩ := hg
      by_cases hkey : a.user_id = uid ∧ a.stock_code = code
      · have haeq : a = h := holding_eq_of_find? hU hh ha hkey.1 hkey.2
        simp only [if_pos hkey]
        subst haeq
        exact hok a hh
      · simp only [if_neg hkey]
        exact hN a ha
  | none =>
      rw [hh] at hg
      simp only [List.mem_append, List.mem_singleton] at hg
      rcases hg with hg | rfl
      · exact hN g hg
      · exact hok0 hh

/-- `update_portfolio` preserves key uniqueness. -/
lemma update_portfolio_keysUnique
    (db : TradingDatabase) (uid code name : String) (δ : ℤ) (κ : ℚ)
    (hU : keysUnique db.portfolio) :
    keysUnique (db.update_portfolio uid code name δ κ).portfolio := by
  unfold TradingDatabase.update_portfolio
  cases hh : db.get_stock_holding uid code with
  | some h =>
      simp only
      apply List.Pairwise.map _ _ hU
      intro a b hab
      by_cases ha : a.user_id = uid ∧ a.stock_code = code <;>
        by_cases hb : b.user_id = uid ∧ b.stock_code = code <;>
        simpa [ha, hb] using hab
  | none =>
      simp only
      unfold keysUnique at hU ⊢
      rw [List.pairwise_append]
      refine ⟨hU, by simp, ?_⟩
      intro a ha b hb
      simp only [List.mem_singleton] at hb
      subst hb
      have hnp := List.find?_eq_none.mp hh a ha
      simp only [decide_eq_true_eq] at hnp
      by_cases h1 : a.user_id = uid
      · exact Or.inr (by simpa using fun h2 => hnp ⟨h1, h2⟩)
      · exact Or.inl (by simpa using h1)

/-- Confirming with nothing pending fails and changes nothing. -/
lemma confirm_random_of_none (db : TradingDatabase) (uid : String)
    (h : db.get_pending_trade uid = none) :
    confirm_random db uid = (.noPendingTrade, db) := by
  unfold confirm_random
  rw [h]

/-- Cancelling with nothing pending fails and changes nothing. -/
lemma cancel_random_of_none (db : TradingDatabase) (uid : String)
    (h : db.get_pending_trade uid = none) :
    cancel_random db uid = (.noPendingTrade, db) := by
  unfold cancel_random
  rw [h]

/-- The dispatched monkey actions never produce the bounds-rejection
outcomes. -/
lemma monkey_dispatch_ne_range (db : TradingDatabase) (uid : String)
    (action : MonkeyAction) (code name : String) (price : ℚ) (mn mx : ℤ)
    (ad pi sd : ℕ) (ch : String) :
    (monkey_dispatch db uid action code name price mn mx ad pi sd ch).1
      ≠ .invalidRange ∧
    (monkey_dispatch db uid action code name price mn mx ad pi sd ch).1
      ≠ .rangeTooSmall := by
  have hbuy : (execute_monkey_buy db uid code name price mn mx ad).1
      ≠ MonkeyOutcome.invalidRange ∧
      (execute_monkey_buy db uid code name price mn mx ad).1
      ≠ MonkeyOutcome.rangeTooSmall := by
    unfold execute_monkey_buy
    refine ⟨?_, ?_⟩ <;>
      · intro hEq
        split at hEq
        · simp at hEq
        · dsimp only at hEq
          split at hEq <;> simp at hEq
  have hsell : (execute_monkey_sell db uid pi sd ch).1
      ≠ MonkeyOutcome.invalidRange ∧
      (execute_monkey_sell db uid pi sd ch).1
      ≠ MonkeyOutcome.rangeTooSmall := by
    unfold execute_monkey_sell
    cases hpf : db.get_portfolio uid with
    | nil => exact ⟨by simp, by simp⟩
    | cons hd tl =>
        simp only [hpf]
        exact ⟨by simp, by simp⟩
  unfold monkey_dispatch
  dsimp only
  by_cases hinv : db.get_portfolio uid ≠ []
  · rw [if_pos hinv]
    cases action with
    | buy => exact hbuy
    | hold => exact ⟨by simp, by simp⟩
    | sell => exact hsell
  · rw [if_neg hinv]
    exact hbuy

/-- Characterization of the UserSettings amount validation. -/
lemma usersetting_amount_ok_iff (mn mx : ℤ) :
    usersetting_amount_ok mn mx = true ↔
      (1000 ≤ mn ∧ 1000 ≤ mx ∧ mn < mx ∧ 1000 ≤ mx - mn) := by
  unfold usersetting_amount_ok
  split_ifs with h1 h2 h3 <;> simp <;> omega

/-! ## Invariant preservation -/

lemma Inv_execBuy (db : TradingDatabase) (uid code name src : String) (s : ℤ) (p : ℚ)
    (hI : Inv db) (hs : 0 < s) : Inv (execBuy db uid code name s p src).2 := by
  obtain ⟨hN, hU, hP, hM⟩ := hI
  simp only [execBuy]
  refine ⟨?_, ?_, ?_, ?_⟩
  · simp only [log_transaction_portfolio]
    exact update_portfolio_nonneg db uid code name s _ hN hU
      (fun h hh => add_nonneg (hN h (List.mem_of_find?_eq_some hh)) hs.le)
      (fun _ => hs.le)
  · simp only [log_transaction_portfolio]
    exact update_portfolio_keysUnique db uid code name s _ hU
  · simp only [log_transaction_pending_trades, update_portfolio_pending_trades]
    exact hP
  · simp only [log_transaction_monkey_sell_state, update_portfolio_monkey_sell_state]
    exact hM

lemma Inv_buy_stock (db : TradingDatabase) (uid code name : String) (s : ℤ)
    (cp : Option ℚ) (op : ℚ) (hI : Inv db) :
    Inv (buy_stock db uid code name s cp op).2 := by
  unfold buy_stock
  by_cases hs : s ≤ 0
  · simpa [hs] using hI
  · simp only [if_neg hs]
    cases cp with
    | some c =>
        by_cases hc : c ≤ 0
        · simpa [hc] using hI
        · simp only [if_neg hc]
          exact Inv_execBuy db uid code name _ s c hI (not_le.mp hs)
    | none =>
        by_cases hc : op ≤ 0
        · simpa [hc] using hI
        · simp only [if_neg hc]
          exact Inv_execBuy db uid code name _ s op hI (not_le.mp hs)

lemma Inv_execSell (db : TradingDatabase) (uid code name src : String)
    (holding : Holding) (s : ℤ) (p : ℚ) (hI : Inv db)
    (hfound : db.get_stock_holding uid code = some holding)
    (hs : s ≤ holding.shares) :
    Inv (execSell db uid code name holding s p src).2 := by
  obtain ⟨hN, hU, hP, hM⟩ := hI
  simp only [execSell]
  refine ⟨?_, ?_, ?_, ?_⟩
  · simp only [record_profit_loss_portfolio, log_transaction_portfolio]
    refine update_portfolio_nonneg db uid code name (-s) _ hN hU ?_ ?_
    · intro h hh
      rw [hfound] at hh
      cases hh
      omega
    · intro h0
      rw [hfound] at h0
      simp at h0
  · simp only [record_profit_loss_portfolio, log_transaction_portfolio]
    exact update_portfolio_keysUnique db uid code name (-s) _ hU
  · simp only [record_profit_loss_pending_trades, log_transaction_pending_trades,
      update_portfolio_pending_trades]
    exact hP
  · simp only [record_profit_loss_monkey_sell_state, log_transaction_monkey_sell_state,
      update_portfolio_monkey_sell_state]
    exact hM

lemma Inv_sell_stock (db : TradingDatabase) (uid code name : String) (s : ℤ)
    (cp : Option ℚ) (op : ℚ) (hI : Inv db) :
    Inv (sell_stock db uid code name s cp op).2 := by
  unfold sell_stock
  by_cases hs : s ≤ 0
  · simpa [hs] using hI
  · simp only [if_neg hs]
    cases hh : db.get_stock_holding uid code with
    | none => simpa [hh] using hI
    | some holding =>
        simp only [hh]
        by_cases hlt : holding.shares < s
        · simpa [hlt] using hI
        · simp only [if_neg hlt]
          cases cp with
          | some c =>
              by_cases hc : c ≤ 0
              · simpa [hc] using hI
              · simp only [if_neg hc]
                exact Inv_execSell db uid code name _ holding s c hI hh (not_lt.mp hlt)
          | none =>
              by_cases hc : op ≤ 0
              · simpa [hc] using hI
              · simp only [if_neg hc]
                exact Inv_execSell db uid code name _ holding s op hI hh (not_lt.mp hlt)

lemma Inv_adjust_cost_cmd (db : TradingDatabase) (uid code name : String) (c : ℚ)
    (hI : Inv db) : Inv (adjust_cost_cmd db uid code name c).2 := by
  obtain ⟨hN, hU, hP, hM⟩ := hI
  unfold adjust_cost_cmd
  by_cases h0 : c ≤ 0
  · simpa [h0] using (⟨hN, hU, hP, hM⟩ : Inv db)
  · simp only [if_neg h0]
    cases hh : db.get_stock_holding uid code with
    | none => exact ⟨hN, hU, hP, hM⟩
    | some holding =>
        by_cases hsh : holding.shares ≤ 0
        · simpa [hsh] using (⟨hN, hU, hP, hM⟩ : Inv db)
        · simp only [if_neg hsh]
          refine ⟨?_, ?_, ?_, ?_⟩
          · simp only [log_transaction_portfolio, TradingDatabase.adjust_cost, hh]
            intro g hg
            simp only [List.mem_map] at hg
            obtain ⟨a, ha, rfl⟩ := hg
            by_cases hk : a.user_id = uid ∧ a.stock_code = code
            · simp only [if_pos hk]
              exact hN a ha
            · simp only [if_neg hk]
              exact hN a ha
          · simp only [log_transaction_portfolio, TradingDatabase.adjust_cost, hh]
            apply List.Pairwise.map _ _ hU
            intro a b hab
            by_cases ha : a.user_id = uid ∧ a.stock_code = code <;>
              by_cases hb : b.user_id = uid ∧ b.stock_code = code <;>
              simpa [ha, hb] using hab
          · simp only [log_transaction_pending_trades, (adjust_cost_snd_fields db uid code c).2.1]
            exact hP
          · simp only [log_transaction_monkey_sell_state,
              (adjust_cost_snd_fields db uid code c).2.2]
            exact hM

lemma Inv_random_stock (db : TradingDatabase) (uid code name : String) (p : ℚ) (k : ℕ)
    (hI : Inv db) : Inv (random_stock db uid code name p k).2 := by
  obtain ⟨hN, hU, hP, hM⟩ := hI
  unfold random_stock
  cases hpt : db.get_pending_trade uid with
  | some t => simpa [hpt] using (⟨hN, hU, hP, hM⟩ : Inv db)
  | none =>
      simp only [hpt]
      by_cases hp0 : p ≤ 0
      · simpa [hp0] using (⟨hN, hU, hP, hM⟩ : Inv db)
      · simp only [if_neg hp0]
        by_cases hz : (⌊(5000 + 1000 * ((k % 96 : ℕ) : ℚ)) / p⌋ : ℤ) = 0
        · rw [if_pos hz]
          exact ⟨hN, hU, hP, hM⟩
        · rw [if_neg hz]
          have hfl : 0 ≤ (⌊(5000 + 1000 * ((k % 96 : ℕ) : ℚ)) / p⌋ : ℤ) := by
            apply Int.floor_nonneg.mpr
            apply div_nonneg _ (not_le.mp hp0).le
            positivity
          refine ⟨?_, ?_, ?_, ?_⟩
          · simpa [TradingDatabase.save_pending_trade] using hN
          · simpa [TradingDatabase.save_pending_trade, keysUnique] using hU
          · intro t ht
            simp only [TradingDatabase.save_pending_trade, List.mem_append,
              List.mem_filter, List.mem_singleton] at ht
            rcases ht with ⟨ht, _⟩ | rfl
            · exact hP t ht
            · simp only
              omega
          · simpa [TradingDatabase.save_pending_trade] using hM

lemma Inv_confirm_random (db : TradingDatabase) (uid : String) (hI : Inv db) :
    Inv (confirm_random db uid).2 := by
  obtain ⟨hN, hU, hP, hM⟩ := hI
  unfold confirm_random
  cases hpt : db.get_pending_trade uid with
  | none => exact ⟨hN, hU, hP, hM⟩
  | some t =>
      simp only [hpt]
      have ht1 : 1 ≤ t.shares := hP t (List.mem_of_find?_eq_some hpt)
      refine ⟨?_, ?_, ?_, ?_⟩
      · simp only [delete_pending_trade_portfolio, log_transaction_portfolio]
        exact update_portfolio_nonneg db uid _ _ _ _ hN hU
          (fun h hh => add_nonneg (hN h (List.mem_of_find?_eq_some hh)) (by omega))
          (fun _ => by omega)
      · simp only [delete_pending_trade_portfolio, log_transaction_portfolio]
        exact update_portfolio_keysUnique db uid _ _ _ _ hU
      · intro q hq
        simp only [TradingDatabase.delete_pending_trade, List.mem_filter,
          log_transaction_pending_trades, update_portfolio_pending_trades] at hq
        exact hP q hq.1
      · simpa using hM

lemma Inv_monkey_sell_flow (db : TradingDatabase) (uid : String) (i j : ℕ)
    (ch : String) (hI : Inv db) : Inv (monkey_sell_flow db uid i j ch).2 := by
  obtain ⟨hN, hU, hP, hM⟩ := hI
  unfold monkey_sell_flow
  cases hms : db.get_monkey_sell_state uid with
  | some s => exact ⟨hN, hU, hP, hM⟩
  | none =>
      simp only [hms]
      unfold execute_monkey_sell
      cases hpf : db.get_portfolio uid with
      | nil => exact ⟨hN, hU, hP, hM⟩
      | cons hd tl =>
          simp only [hpf]
          have hmem : (hd :: tl).get ⟨i % (hd :: tl).length,
              Nat.mod_lt _ (Nat.succ_pos _)⟩ ∈ db.get_portfolio uid := by
            rw [hpf]
            exact List.get_mem _ _ _
          have hpos : 0 < ((hd :: tl).get ⟨i % (hd :: tl).length,
              Nat.mod_lt _ (Nat.succ_pos _)⟩).shares := by
            have hf := (List.mem_filter.mp hmem).2
            simp only [decide_eq_true_eq] at hf
            exact hf.2
          refine ⟨?_, ?_, ?_, ?_⟩
          · simpa using hN
          · simpa [keysUnique] using hU
          · simpa using hP
          · intro s hs
            simp only [TradingDatabase.save_monkey_sell_state, List.mem_append,
              List.mem_filter, List.mem_singleton] at hs
            rcases hs with ⟨hs, _⟩ | rfl
            · exact hM s hs
            · simp only
              have hmod : 0 ≤ (j : ℤ) % ((hd :: tl).get ⟨i % (hd :: tl).length,
                  Nat.mod_lt _ (Nat.succ_pos _)⟩).shares :=
                Int.emod_nonneg _ (ne_of_gt hpos)
              omega

lemma Inv_settle (db : TradingDatabase) (uid : String) (content : Option ℚ) (f : Bool)
    (hI : Inv db) (hG : Op.settleGuard db (.settleOp uid content f)) :
    Inv (process_monkey_sell_price db uid content f).2 := by
  obtain ⟨hN, hU, hP, hM⟩ := hI
  unfold process_monkey_sell_price
  cases hms : db.get_monkey_sell_state uid with
  | none => exact ⟨hN, hU, hP, hM⟩
  | some st =>
      simp only [hms]
      cases content with
      | none => exact ⟨hN, hU, hP, hM⟩
      | some price =>
          by_cases hp : price ≤ 0
          · simpa [hp] using (⟨hN, hU, hP, hM⟩ : Inv db)
          · simp only [if_neg hp]
            simp only [Op.settleGuard, hms] at hG
            cases f with
            | true =>
                rw [if_pos rfl]
                refine ⟨by simpa using hN, by simpa [keysUnique] using hU,
                  by simpa using hP, ?_⟩
                intro s hs
                simp only [TradingDatabase.delete_monkey_sell_state,
                  List.mem_filter] at hs
                exact hM s hs.1
            | false =>
                rw [if_neg Bool.false_ne_true]
                have hcov := hG (not_le.mp hp) rfl
                refine ⟨?_, ?_, ?_, ?_⟩
                · simp only [TradingDatabase.delete_monkey_sell_state,
                    record_profit_loss_portfolio, log_transaction_portfolio]
                  refine update_portfolio_nonneg db uid _ _ _ _ hN hU ?_ ?_
                  · intro h hh
                    rw [hh] at hcov
                    omega
                  · intro h0
                    rw [h0] at hcov
                    exact absurd hcov (by simp)
                · simp only [TradingDatabase.delete_monkey_sell_state,
                    record_profit_loss_portfolio, log_transaction_portfolio]
                  exact update_portfolio_keysUnique db uid _ _ _ _ hU
                · simp only [TradingDatabase.delete_monkey_sell_state,
                    record_profit_loss_pending_trades, log_transaction_pending_trades,
                    update_portfolio_pending_trades]
                  exact hP
                · intro s hs
                  simp only [TradingDatabase.delete_monkey_sell_state,
                    List.mem_filter, record_profit_loss_monkey_sell_state,
                    log_transaction_monkey_sell_state,
                    update_portfolio_monkey_sell_state] at hs
                  exact hM s hs.1

lemma Inv_step (db : TradingDatabase) (op : Op) (hI : Inv db)
    (hG : op.settleGuard db) : Inv (op.apply db) := by
  cases op with
  | buyOp uid code name s p => exact Inv_buy_stock db uid code name s (some p) 0 hI
  | sellOp uid code name s p => exact Inv_sell_stock db uid code name s (some p) 0 hI
  | adjustOp uid code name c => exact Inv_adjust_cost_cmd db uid code name c hI
  | proposeOp uid code name p k => exact Inv_random_stock db uid code name p k hI
  | confirmOp uid => exact Inv_confirm_random db uid hI
  | monkeySellOp uid i j ch => exact Inv_monkey_sell_flow db uid i j ch hI
  | settleOp uid c f => exact Inv_settle db uid c f hI hG

lemma Inv_empty : Inv TradingDatabase.empty :=
  ⟨by simp [TradingDatabase.empty], List.Pairwise.nil,
   by simp [TradingDatabase.empty], by simp [TradingDatabase.empty]⟩

lemma Inv_foldl : ∀ (ops : List Op) (db : TradingDatabase),
    Inv db → GuardedRun db ops → Inv (ops.foldl Op.apply db) := by
  intro ops
  induction ops with
  | nil => intro db h _; simpa using h
  | cons op rest ih =>
      intro db h hg
      exact ih (Op.apply db op) (Inv_step db op h hg.1) hg.2

/-! ## Basic facts about the calculators -/

lemma round2_sub_le (q : ℚ) : round2 q - q ≤ 1 / 200 := by
  have h := abs_sub_round (α := ℚ) (q * 100)
  rw [abs_le] at h
  unfold round2
  have h2 := h.2
  linarith

lemma le_round2_sub (q : ℚ) : -(1 / 200) ≤ round2 q - q := by
  have h := abs_sub_round (α := ℚ) (q * 100)
  rw [abs_le] at h
  unfold round2
  have h1 := h.1
  linarith

/-- The buy calculators of the two cogs agree pointwise. -/
lemma buy_amount_eq (s : ℤ) (p : ℚ) :
    TradingCog.calculate_buy_amount s p = MonkeyCog.calculate_buy_amount s p := by
  unfold TradingCog.calculate_buy_amount MonkeyCog.calculate_buy_amount
  by_cases h : round2 ((s : ℚ) * p * HANDLING_FEE) < MIN_FEE <;> simp [h]

/-- The sell calculators of the two cogs agree pointwise. -/
lemma sell_amount_eq (s : ℤ) (p : ℚ) :
    TradingCog.calculate_sell_amount s p = MonkeyCog.calculate_sell_amount s p := by
  unfold TradingCog.calculate_sell_amount MonkeyCog.calculate_sell_amount
  by_cases h : round2 ((s : ℚ) * p * HANDLING_FEE) < MIN_FEE <;> simp [h]
  congr 1
  ring

/-- Sell proceeds never exceed the untaxed base amount. -/
lemma sell_amount_le_base (s : ℤ) (hs : 0 < s) (p : ℚ) (hp : 0 < p) :
    TradingCog.calculate_sell_amount s p ≤ (s : ℚ) * p := by
  have hbase : (0 : ℚ) < (s : ℚ) * p := by
    have : (0 : ℚ) < (s : ℚ) := by exact_mod_cast hs
    exact mul_pos this hp
  have htax : (0 : ℚ) ≤ (s : ℚ) * p * ST_TAX := by
    apply mul_nonneg hbase.le
    norm_num [ST_TAX]
  by_cases h : round2 ((s : ℚ) * p * HANDLING_FEE) < MIN_FEE
  · simp only [TradingCog.calculate_sell_amount, h, if_true]
    have hr := round2_sub_le ((s : ℚ) * p - (s : ℚ) * p * ST_TAX - MIN_FEE)
    simp only [MIN_FEE] at hr ⊢
    linarith
  · simp only [TradingCog.calculate_sell_amount, h, if_false]
    push_neg at h
    have hfee := round2_sub_le ((s : ℚ) * p * HANDLING_FEE)
    have hr := round2_sub_le ((s : ℚ) * p - (s : ℚ) * p * (HANDLING_FEE + ST_TAX))
    have hring : (s : ℚ) * p * (HANDLING_FEE + ST_TAX)
        = (s : ℚ) * p * HANDLING_FEE + (s : ℚ) * p * ST_TAX := by ring
    simp only [MIN_FEE] at h
    linarith

/-- The buy cost never drops below the raw base amount. -/
lemma base_le_buy_amount (s : ℤ) (p : ℚ) :
    (s : ℚ) * p ≤ TradingCog.calculate_buy_amount s p := by
  by_cases h : round2 ((s : ℚ) * p * HANDLING_FEE) < MIN_FEE
  · simp only [TradingCog.calculate_buy_amount, h, if_true]
    have hr := le_round2_sub ((s : ℚ) * p + MIN_FEE)
    simp only [MIN_FEE] at hr ⊢
    linarith
  · simp only [TradingCog.calculate_buy_amount, h, if_false]
    push_neg at h
    have hr := le_round2_sub ((s : ℚ) * p + round2 ((s : ℚ) * p * HANDLING_FEE))
    simp only [MIN_FEE] at h
    linarith

/-! ## Claims -/

/-- C10: the buy-cost and sell-proceeds calculators defined in the trading
cog and the ones defined independently in the monkey cog are extensionally
equal, so manual trades and auto-trades are charged identical fees and
taxes. -/
theorem C10_calculators_agree (s : ℤ) (p : ℚ) :
    TradingCog.calculate_buy_amount s p = MonkeyCog.calculate_buy_amount s p ∧
    TradingCog.calculate_sell_amount s p = MonkeyCog.calculate_sell_amount s p :=
  ⟨buy_amount_eq s p, sell_amount_eq s p⟩

/-- C8: for all shares s > 0 and prices p > 0, sell proceeds are at most
s × p and buy cost is at least s × p — fees and taxes never act as
subsidies (stated for both cogs' calculators). -/
theorem C8_fees_never_subsidize (s : ℤ) (hs : 0 < s) (p : ℚ) (hp : 0 < p) :
    TradingCog.calculate_sell_amount s p ≤ (s : ℚ) * p ∧
    (s : ℚ) * p ≤ TradingCog.calculate_buy_amount s p ∧
    MonkeyCog.calculate_sell_amount s p ≤ (s : ℚ) * p ∧
    (s : ℚ) * p ≤ MonkeyCog.calculate_buy_amount s p := by
  refine ⟨sell_amount_le_base s hs p hp, base_le_buy_amount s p, ?_, ?_⟩
  · rw [← sell_amount_eq]
    exact sell_amount_le_base s hs p hp
  · rw [← buy_amount_eq]
    exact base_le_buy_amount s p

/-- C8 witness: the bounds at the concrete trade 10 shares at price 650. -/
theorem C8_fees_never_subsidize_witness :
    TradingCog.calculate_sell_amount 10 650 ≤ ((10 : ℤ) : ℚ) * 650 ∧
    ((10 : ℤ) : ℚ) * 650 ≤ TradingCog.calculate_buy_amount 10 650 ∧
    MonkeyCog.calculate_sell_amount 10 650 ≤ ((10 : ℤ) : ℚ) * 650 ∧
    ((10 : ℤ) : ℚ) * 650 ≤ MonkeyCog.calculate_buy_amount 10 650 :=
  C8_fees_never_subsidize 10 (by norm_num) 650 (by norm_num)

/-- C7 counterexample: the calculators perform no input validation at all —
on the invalid inputs shares = 0 and shares = −5 they return ordinary
numeric results (charging the minimum fee on an empty or negative trade)
instead of reporting an `InvalidTradeInput` error; they have no error path
in the source. -/
theorem C7_counterexample :
    TradingCog.calculate_buy_amount 0 100 = 20 ∧
    TradingCog.calculate_sell_amount 0 100 = -20 ∧
    MonkeyCog.calculate_buy_amount (-5) 10 = -30 := by
  refine ⟨?_, ?_, ?_⟩ <;>
    norm_num [TradingCog.calculate_buy_amount, TradingCog.calculate_sell_amount,
      MonkeyCog.calculate_buy_amount, round2, round_eq, HANDLING_FEE, MIN_FEE, ST_TAX]

/-- C7 (amended): the calculators are pure total functions with no error
reporting; the validation the claim attributes to them is performed by the
calling commands, which reject non-positive share counts and non-positive
custom prices with an invalid-input outcome and leave the store
unchanged. -/
theorem C7_amended_callers_validate (db : TradingDatabase) (uid code name : String)
    (s : ℤ) (p op : ℚ) (cp : Option ℚ) :
    (s ≤ 0 → buy_stock db uid code name s cp op = (.invalidShares, db)) ∧
    (s ≤ 0 → sell_stock db uid code name s cp op = (.invalidShares, db)) ∧
    (0 < s → p ≤ 0 → buy_stock db uid code name s (some p) op = (.invalidPrice, db)) ∧
    (0 < s → p ≤ 0 → ∀ h, db.get_stock_holding uid code = some h → s ≤ h.shares →
      sell_stock db uid code name s (some p) op = (.invalidPrice, db)) := by
  refine ⟨?_, ?_, ?_, ?_⟩
  · intro hs
    simp [buy_stock, hs]
  · intro hs
    simp [sell_stock, hs]
  · intro hs hp
    simp [buy_stock, not_le.mpr hs, hp]
  · intro hs hp h hh hcov
    simp [sell_stock, not_le.mpr hs, hh, not_lt.mpr hcov, hp]

/-- C7 amended witness: concrete rejected invocations of all four guard
paths, on the empty store and on a store holding 10 shares. -/
theorem C7_amended_callers_validate_witness :
    buy_stock TradingDatabase.empty "u" "2330" "台積電" 0 (some 100) 0
      = (.invalidShares, TradingDatabase.empty) ∧
    sell_stock TradingDatabase.empty "u" "2330" "台積電" 0 (some 100) 0
      = (.invalidShares, TradingDatabase.empty) ∧
    buy_stock TradingDatabase.empty "u" "2330" "台積電" 1 (some 0) 0
      = (.invalidPrice, TradingDatabase.empty) ∧
    sell_stock (TradingDatabase.empty.update_portfolio "u" "2330" "台積電" 10 6020)
        "u" "2330" "台積電" 5 (some 0) 0
      = (.invalidPrice, TradingDatabase.empty.update_portfolio "u" "2330" "台積電" 10 6020) := by
  refine ⟨?_, ?_, ?_, ?_⟩
  · exact (C7_amended_callers_validate TradingDatabase.empty "u" "2330" "台積電"
      0 100 0 (some 100)).1 (by norm_num)
  · exact (C7_amended_callers_validate TradingDatabase.empty "u" "2330" "台積電"
      0 100 0 (some 100)).2.1 (by norm_num)
  · exact (C7_amended_callers_validate TradingDatabase.empty "u" "2330" "台積電"
      1 0 0 (some 0)).2.2.1 (by norm_num) (by norm_num)
  · exact (C7_amended_callers_validate
      (TradingDatabase.empty.update_portfolio "u" "2330" "台積電" 10 6020)
      "u" "2330" "台積電" 5 0 0 (some 0)).2.2.2 (by norm_num) (by norm_num)
      ⟨"u", "2330", "台積電", 10, 6020⟩ (by decide) (by decide)

/-- C3: clearing realized P&L is a no-op when the user's total is zero;
otherwise it appends exactly one synthetic offsetting entry; in both cases
the post-clear total is zero, the pre-clear total is returned, and no prior
entry is deleted or mutated. -/
theorem C3_clear_profit_loss (db : TradingDatabase) (uid : String) :
    (db.clear_profit_loss uid).1 = db.get_total_profit_loss uid ∧
    ((db.clear_profit_loss uid).2).get_total_profit_loss uid = 0 ∧
    (db.get_total_profit_loss uid = 0 → (db.clear_profit_loss uid).2 = db) ∧
    (db.get_total_profit_loss uid ≠ 0 →
      ((db.clear_profit_loss uid).2).profit_loss = db.profit_loss ++
        [⟨uid, "SYSTEM", "損益歸零", 0, 0, 0, -(db.get_total_profit_loss uid),
          some "清空損益紀錄"⟩]) := by
  by_cases h0 : db.get_total_profit_loss uid = 0
  · refine ⟨by simp [TradingDatabase.clear_profit_loss, h0], ?_, fun _ => ?_, fun hne => absurd h0 hne⟩
    · simp [TradingDatabase.clear_profit_loss, h0]
    · simp [TradingDatabase.clear_profit_loss, h0]
  · have hsum : ((db.record_profit_loss uid "SYSTEM" "損益歸零" 0 0 0
        (-(db.get_total_profit_loss uid)) (some "清空損益紀錄"))).get_total_profit_loss uid
        = 0 := by
      simp [TradingDatabase.get_total_profit_loss, TradingDatabase.record_profit_loss,
        List.filter_append]
    refine ⟨by simp [TradingDatabase.clear_profit_loss, h0], ?_, fun hz => absurd hz h0, fun _ => ?_⟩
    · simpa [TradingDatabase.clear_profit_loss, h0] using hsum
    · simp [TradingDatabase.clear_profit_loss, h0, TradingDatabase.record_profit_loss]

/-- C4: selling more than the currently held shares (or with no position at
all) fails with an insufficient-holdings report of current vs requested
share counts, and the whole store — Position including total_cost,
TransactionLog and RealizedPnL — is left unchanged. -/
theorem C4_insufficient_holdings (db : TradingDatabase) (uid code name : String)
    (s : ℤ) (cp : Option ℚ) (op : ℚ) (hs : 0 < s)
    (hshort : ∀ h, db.get_stock_holding uid code = some h → h.shares < s) :
    sell_stock db uid code name s cp op
      = (.insufficientHoldings
          (((db.get_stock_holding uid code).map Holding.shares).getD 0) s, db) := by
  unfold sell_stock
  rw [if_neg (not_le.mpr hs)]
  cases hh : db.get_stock_holding uid code with
  | none => simp [hh]
  | some h =>
      have hlt := hshort h hh
      simp [hh, hlt]

/-- C4 witness: requesting 5 of 3 held shares fails, reports 3 vs 5, and
returns the store unchanged. -/
theorem C4_insufficient_holdings_witness :
    sell_stock (TradingDatabase.empty.update_portfolio "u" "2330" "台積電" 3 1800)
        "u" "2330" "台積電" 5 (some 650) 0
      = (.insufficientHoldings 3 5,
         TradingDatabase.empty.update_portfolio "u" "2330" "台積電" 3 1800) := by
  have h := C4_insufficient_holdings
    (TradingDatabase.empty.update_portfolio "u" "2330" "台積電" 3 1800)
    "u" "2330" "台積電" 5 (some 650) 0 (by norm_num)
    (by
      intro h hh
      rw [show (TradingDatabase.empty.update_portfolio "u" "2330" "台積電"
          3 1800).get_stock_holding "u" "2330"
          = some (⟨"u", "2330", "台積電", 3, 1800⟩ : Holding) from by decide] at hh
      cases hh
      decide)
  rw [show (((TradingDatabase.empty.update_portfolio "u" "2330" "台積電"
      3 1800).get_stock_holding "u" "2330").map Holding.shares).getD 0 = 3
      from by decide] at h
  exact h

/-- C5: a pending trade is resolved at most once — after a successful
confirmation the pending row is deleted, and a second confirm (or a cancel)
fails with no-pending-trade and applies no further changes. -/
theorem C5_confirm_exactly_once (db : TradingDatabase) (uid : String)
    (t : PendingTrade) (hpt : db.get_pending_trade uid = some t) :
    (confirm_random db uid).1 = .resolved t ∧
    ((confirm_random db uid).2).get_pending_trade uid = none ∧
    confirm_random (confirm_random db uid).2 uid
      = (.noPendingTrade, (confirm_random db uid).2) ∧
    cancel_random (confirm_random db uid).2 uid
      = (.noPendingTrade, (confirm_random db uid).2) := by
  have h2 : ((confirm_random db uid).2).get_pending_trade uid = none := by
    simp only [confirm_random, hpt]
    exact get_pending_trade_delete _ uid
  exact ⟨by simp [confirm_random, hpt], h2,
    confirm_random_of_none _ uid h2, cancel_random_of_none _ uid h2⟩

/-- C5 witness: confirming the concrete pending trade of 10 shares at 600
succeeds once and then fails (and cancel fails) with nothing changed. -/
theorem C5_confirm_exactly_once_witness :
    (confirm_random (TradingDatabase.empty.save_pending_trade "u" "2330" "台積電"
        10 600 6020) "u").1 = .resolved ⟨"u", "2330", "台積電", 10, 600, 6020⟩ ∧
    ((confirm_random (TradingDatabase.empty.save_pending_trade "u" "2330" "台積電"
        10 600 6020) "u").2).get_pending_trade "u" = none ∧
    confirm_random ((confirm_random (TradingDatabase.empty.save_pending_trade "u"
        "2330" "台積電" 10 600 6020) "u").2) "u"
      = (.noPendingTrade, (confirm_random (TradingDatabase.empty.save_pending_trade
          "u" "2330" "台積電" 10 600 6020) "u").2) ∧
    cancel_random ((confirm_random (TradingDatabase.empty.save_pending_trade "u"
        "2330" "台積電" 10 600 6020) "u").2) "u"
      = (.noPendingTrade, (confirm_random (TradingDatabase.empty.save_pending_trade
          "u" "2330" "台積電" 10 600 6020) "u").2) :=
  C5_confirm_exactly_once _ "u" ⟨"u", "2330", "台積電", 10, 600, 6020⟩ (by decide)

/-- C6: with a pending settlement, an unparsable message yields a retryable
format error and an out-of-range price a retryable price error, both leaving
the store (and the pending settlement) intact; a positive price executes the
sell using the average cost stored in the settlement row — not recomputed
from the current position — and deletes the settlement; an internal error
during execution also deletes the settlement. -/
theorem C6_settlement_price_input (db : TradingDatabase) (uid : String)
    (st : SellState) (f : Bool) (p : ℚ)
    (hst : db.get_monkey_sell_state uid = some st) :
    (process_monkey_sell_price db uid none f = (.formatError, db)) ∧
    (p ≤ 0 → process_monkey_sell_price db uid (some p) f = (.invalidPrice, db)) ∧
    (0 < p → process_monkey_sell_price db uid (some p) true
        = (.internalError, db.delete_monkey_sell_state uid)) ∧
    (0 < p →
      (process_monkey_sell_price db uid (some p) false).1
        = .sold p (MonkeyCog.calculate_sell_amount st.shares_to_sell p)
            (round2 (MonkeyCog.calculate_sell_amount st.shares_to_sell p
              - st.average_cost * st.shares_to_sell)) ∧
      ((process_monkey_sell_price db uid (some p) false).2).get_monkey_sell_state uid
        = none ∧
      ((process_monkey_sell_price db uid (some p) false).2).profit_loss
        = db.profit_loss ++ [⟨uid, st.stock_code, st.stock_name, st.shares_to_sell,
            st.average_cost, p,
            round2 (MonkeyCog.calculate_sell_amount st.shares_to_sell p
              - st.average_cost * st.shares_to_sell), some "猴子交易"⟩] ∧
      (∀ h, db.get_stock_holding uid st.stock_code = some h →
        ((process_monkey_sell_price db uid (some p) false).2).get_stock_holding uid
            st.stock_code
          = some { h with
              shares := h.shares - st.shares_to_sell,
              total_cost := h.total_cost - st.average_cost * st.shares_to_sell })) := by
  refine ⟨by simp [process_monkey_sell_price, hst], fun hp => ?_, fun hp => ?_, fun hp => ?_⟩
  · simp [process_monkey_sell_price, hst, hp]
  · simp only [process_monkey_sell_price, hst]
    rw [if_neg (not_le.mpr hp)]
    exact if_pos trivial
  · have hred : process_monkey_sell_price db uid (some p) false
        = (.sold p (MonkeyCog.calculate_sell_amount st.shares_to_sell p)
            (round2 (MonkeyCog.calculate_sell_amount st.shares_to_sell p
              - st.average_cost * st.shares_to_sell)),
           ((((db.update_portfolio uid st.stock_code st.stock_name (-st.shares_to_sell)
                (-(st.average_cost * st.shares_to_sell))).log_transaction uid "!monkey"
                "賣出" st.stock_code st.stock_name (-st.shares_to_sell) p
                (MonkeyCog.calculate_sell_amount st.shares_to_sell p)
                (some "猴子自動賣出")).record_profit_loss uid st.stock_code st.stock_name
                st.shares_to_sell st.average_cost p
                (round2 (MonkeyCog.calculate_sell_amount st.shares_to_sell p
                  - st.average_cost * st.shares_to_sell))
                (some "猴子交易")).delete_monkey_sell_state uid)) := by
      simp [process_monkey_sell_price, hst, not_le.mpr hp]
    rw [hred]
    refine ⟨rfl, get_monkey_sell_state_delete _ uid, by simp [TradingDatabase.record_profit_loss], ?_⟩
    intro h hh
    have hcongr := get_stock_holding_portfolio_congr
      (((((db.update_portfolio uid st.stock_code st.stock_name (-st.shares_to_sell)
          (-(st.average_cost * st.shares_to_sell))).log_transaction uid "!monkey"
          "賣出" st.stock_code st.stock_name (-st.shares_to_sell) p
          (MonkeyCog.calculate_sell_amount st.shares_to_sell p)
          (some "猴子自動賣出")).record_profit_loss uid st.stock_code st.stock_name
          st.shares_to_sell st.average_cost p
          (round2 (MonkeyCog.calculate_sell_amount st.shares_to_sell p
            - st.average_cost * st.shares_to_sell))
          (some "猴子交易")).delete_monkey_sell_state uid))
      (db.update_portfolio uid st.stock_code st.stock_name (-st.shares_to_sell)
        (-(st.average_cost * st.shares_to_sell)))
      (by simp) uid st.stock_code
    rw [hcongr]
    have hupd := get_stock_holding_update_found db uid st.stock_code st.stock_name
      (-st.shares_to_sell) (-(st.average_cost * st.shares_to_sell)) h hh
    rw [hupd]
    simp only [Option.some.injEq, Holding.mk.injEq]
    exact ⟨trivial, trivial, trivial, by omega, by ring⟩

/-- C6 witness: the concrete pending settlement of 10 shares at stored
average cost 602, over a position of 10 shares costing 6020. -/
theorem C6_settlement_price_input_witness :
    (process_monkey_sell_price ((TradingDatabase.empty.update_portfolio "u" "2330"
        "台積電" 10 6020).save_monkey_sell_state "u" "2330" "台積電" 10 602 "ch")
        "u" none false
      = (.formatError, (TradingDatabase.empty.update_portfolio "u" "2330"
          "台積電" 10 6020).save_monkey_sell_state "u" "2330" "台積電" 10 602 "ch")) ∧
    (process_monkey_sell_price ((TradingDatabase.empty.update_portfolio "u" "2330"
        "台積電" 10 6020).save_monkey_sell_state "u" "2330" "台積電" 10 602 "ch")
        "u" (some 650) true
      = (.internalError, ((TradingDatabase.empty.update_portfolio "u" "2330"
          "台積電" 10 6020).save_monkey_sell_state "u" "2330" "台積電" 10 602
          "ch").delete_monkey_sell_state "u")) ∧
    (process_monkey_sell_price ((TradingDatabase.empty.update_portfolio "u" "2330"
        "台積電" 10 6020).save_monkey_sell_state "u" "2330" "台積電" 10 602 "ch")
        "u" (some 650) false).1 = .sold 650 6460.5 440.5 := by
  have h := C6_settlement_price_input ((TradingDatabase.empty.update_portfolio "u"
      "2330" "台積電" 10 6020).save_monkey_sell_state "u" "2330" "台積電" 10 602 "ch")
    "u" ⟨"u", "2330", "台積電", 10, 602, "ch"⟩ false 650 (by decide)
  refine ⟨h.1, h.2.2.1 (by norm_num), ?_⟩
  rw [(h.2.2.2 (by norm_num)).1]
  norm_num [MonkeyCog.calculate_sell_amount, round2, round_eq,
    HANDLING_FEE, MIN_FEE, ST_TAX]

/-- C1: Sell captures the average cost before any mutation, computes
proceeds with the sell calculator, cost basis = avgCost × shares sold,
profit/loss = round2(proceeds − costBasis), and updates the position by
subtracting the sold shares and the cost basis — not the proceeds — while
appending the matching transaction-log and realized-P&L rows. -/
theorem C1_sell_uses_cost_basis (db : TradingDatabase) (uid code name : String)
    (holding : Holding) (s : ℤ) (p : ℚ)
    (hfound : db.get_stock_holding uid code = some holding)
    (hs : 0 < s) (hcover : s ≤ holding.shares) (hp : 0 < p) :
    (sell_stock db uid code name s (some p) 0).1
      = .ok p (holding.total_cost / holding.shares)
          (TradingCog.calculate_sell_amount s p)
          (round2 (TradingCog.calculate_sell_amount s p
            - holding.total_cost / holding.shares * s)) ∧
    ((sell_stock db uid code name s (some p) 0).2).get_stock_holding uid code
      = some { holding with
          shares := holding.shares - s,
          total_cost := holding.total_cost - holding.total_cost / holding.shares * s } ∧
    ((sell_stock db uid code name s (some p) 0).2).transactions
      = db.transactions ++ [⟨uid, "!sell", "賣出", code, name, -s, p,
          TradingCog.calculate_sell_amount s p, some "(自訂價格)"⟩] ∧
    ((sell_stock db uid code name s (some p) 0).2).profit_loss
      = db.profit_loss ++ [⟨uid, code, name, s,
          holding.total_cost / holding.shares, p,
          round2 (TradingCog.calculate_sell_amount s p
            - holding.total_cost / holding.shares * s), none⟩] := by
  have hred : sell_stock db uid code name s (some p) 0
      = execSell db uid code name holding s p "(自訂價格)" := by
    unfold sell_stock
    rw [if_neg (not_le.mpr hs)]
    simp only [hfound]
    rw [if_neg (not_lt.mpr hcover), if_neg (not_le.mpr hp)]
  rw [hred]
  refine ⟨rfl, ?_, ?_, ?_⟩
  · have hcongr := get_stock_holding_portfolio_congr
      (execSell db uid code name holding s p "(自訂價格)").2
      (db.update_portfolio uid code name (-s)
        (-(holding.total_cost / holding.shares * s)))
      (by simp [execSell]) uid code
    rw [hcongr]
    have hupd := get_stock_holding_update_found db uid code name (-s)
      (-(holding.total_cost / holding.shares * s)) holding hfound
    rw [hupd]
    simp only [Option.some.injEq, Holding.mk.injEq]
    exact ⟨trivial, trivial, trivial, by omega, by ring⟩
  · simp [execSell, TradingDatabase.record_profit_loss, TradingDatabase.log_transaction]
  · simp [execSell, TradingDatabase.record_profit_loss, TradingDatabase.log_transaction]

/-- C1 witness: from Position{shares: 10, total_cost: 6020}, selling 10
shares at price 650 yields proceeds 6460.5, average cost 602, cost basis
6020 and profit/loss 440.5, and zeroes the position. -/
theorem C1_sell_uses_cost_basis_witness :
    (sell_stock (TradingDatabase.empty.update_portfolio "u" "2330" "台積電" 10 6020)
        "u" "2330" "台積電" 10 (some 650) 0).1 = .ok 650 602 6460.5 440.5 ∧
    ((sell_stock (TradingDatabase.empty.update_portfolio "u" "2330" "台積電" 10 6020)
        "u" "2330" "台積電" 10 (some 650) 0).2).get_stock_holding "u" "2330"
      = some ⟨"u", "2330", "台積電", 0, 0⟩ := by
  have h := C1_sell_uses_cost_basis
    (TradingDatabase.empty.update_portfolio "u" "2330" "台積電" 10 6020)
    "u" "2330" "台積電" ⟨"u", "2330", "台積電", 10, 6020⟩ 10 650
    (by decide) (by norm_num) (by norm_num) (by norm_num)
  constructor
  · rw [h.1]
    norm_num [TradingCog.calculate_sell_amount, round2, round_eq,
      HANDLING_FEE, MIN_FEE, ST_TAX]
  · rw [h.2.1]
    norm_num

/-- C2 counterexample: the settlement price-input deducts the pending
shares-to-sell without re-checking the current position.  Buying 10 shares,
proposing a monkey sell of all 10, manually selling the 10, and then
answering the settlement prompt drives the position to −10 shares, so the
shares-nonnegativity invariant is violated by this operation sequence from
the empty store. -/
theorem C2_counterexample :
    ¬ (∀ g ∈ (runOps [Op.buyOp "u" "2330" "台積電" 10 600,
          Op.monkeySellOp "u" 0 9 "ch",
          Op.sellOp "u" "2330" "台積電" 10 650,
          Op.settleOp "u" (some 650) false]).portfolio, 0 ≤ g.shares) := by
  intro hall
  have hfind : List.find? (fun h => decide (h.user_id = "u" ∧ h.stock_code = "2330"))
      (runOps [Op.buyOp "u" "2330" "台積電" 10 600,
        Op.monkeySellOp "u" 0 9 "ch",
        Op.sellOp "u" "2330" "台積電" 10 650,
        Op.settleOp "u" (some 650) false]).portfolio
      = some ⟨"u", "2330", "台積電", -10, -6020⟩ := by
    norm_num [runOps, Op.apply, buy_stock, execBuy, sell_stock, execSell,
      monkey_sell_flow, execute_monkey_sell, process_monkey_sell_price,
      TradingDatabase.empty, TradingDatabase.update_portfolio,
      TradingDatabase.get_stock_holding, TradingDatabase.get_portfolio,
      TradingDatabase.get_monkey_sell_state, TradingDatabase.save_monkey_sell_state,
      TradingDatabase.delete_monkey_sell_state, TradingDatabase.log_transaction,
      TradingDatabase.record_profit_loss, TradingCog.calculate_buy_amount,
      TradingCog.calculate_sell_amount, MonkeyCog.calculate_sell_amount,
      round2, round_eq, HANDLING_FEE, MIN_FEE, ST_TAX]
  have hge := hall _ (List.mem_of_find?_eq_some hfind)
  norm_num at hge

/-- C2 (amended): starting from the empty store, every sequence of ledger
operations — Buy, Sell, AdjustCost, ProposeRandomTrade, ConfirmPendingTrade,
the monkey sell proposal and the settlement price-input — keeps every
position's share count nonnegative, provided each settlement price-input
only executes while the current position still covers the pending
shares-to-sell; without that guard the settlement step can drive shares
negative (see the counterexample). -/
theorem C2_amended_shares_nonneg (ops : List Op)
    (hG : GuardedRun TradingDatabase.empty ops) :
    ∀ g ∈ (runOps ops).portfolio, 0 ≤ g.shares :=
  (Inv_foldl ops TradingDatabase.empty Inv_empty hG).1

/-- C2 amended witness: a concrete guarded buy-then-sell run keeps shares
nonnegative. -/
theorem C2_amended_shares_nonneg_witness :
    GuardedRun TradingDatabase.empty
      [Op.buyOp "u" "2330" "台積電" 10 600, Op.sellOp "u" "2330" "台積電" 4 650] ∧
    ∀ g ∈ (runOps [Op.buyOp "u" "2330" "台積電" 10 600,
        Op.sellOp "u" "2330" "台積電" 4 650]).portfolio, 0 ≤ g.shares :=
  ⟨⟨trivial, trivial, trivial⟩,
   C2_amended_shares_nonneg _ ⟨trivial, trivial, trivial⟩⟩

/-- C9 counterexample: `!monkey 0 2000` is accepted (the hold action runs)
although the bounds (0, 2000) fail the UserSettings validation, whose
minimum is 1000 — the auto-trade bounds check only requires
nonnegativity. -/
theorem C9_counterexample :
    (monkey_trade (TradingDatabase.empty.update_portfolio "u" "2330" "台積電" 10 6020)
        "u" (some (0, 2000)) MonkeyAction.hold "c" "n" 0 0 0 0 "ch").1
      = MonkeyOutcome.held ∧
    usersetting_amount_ok 0 2000 = false := by
  exact ⟨by decide, by decide⟩

/-- C9 (amended): caller-supplied bounds for the auto-trade are accepted
exactly when both are nonnegative with min < max and max − min ≥ 1000 — a
strictly weaker condition than the UserSettings validation (which also
demands min ≥ 1000, and which implies acceptance here); when the bounds are
rejected, no trade happens: apart from the get-or-create of the settings
row, the store is unchanged. -/
theorem C9_amended_bounds_validation (db : TradingDatabase) (uid : String)
    (mn mx : ℤ) (action : MonkeyAction) (code name : String) (price : ℚ)
    (ad pi sd : ℕ) (ch : String)
    (hns : db.get_monkey_sell_state uid = none) :
    (((monkey_trade db uid (some (mn, mx)) action code name price ad pi sd ch).1
        = .invalidRange ∨
      (monkey_trade db uid (some (mn, mx)) action code name price ad pi sd ch).1
        = .rangeTooSmall)
      ↔ ¬(0 ≤ mn ∧ mn < mx ∧ 1000 ≤ mx - mn)) ∧
    ((monkey_trade db uid (some (mn, mx)) action code name price ad pi sd ch).1
        = .invalidRange ∨
      (monkey_trade db uid (some (mn, mx)) action code name price ad pi sd ch).1
        = .rangeTooSmall →
      (monkey_trade db uid (some (mn, mx)) action code name price ad pi sd ch).2.portfolio
          = db.portfolio ∧
      (monkey_trade db uid (some (mn, mx)) action code name price ad pi sd ch).2.transactions
          = db.transactions ∧
      (monkey_trade db uid (some (mn, mx)) action code name price ad pi sd ch).2.profit_loss
          = db.profit_loss ∧
      (monkey_trade db uid (some (mn, mx)) action code name price ad pi sd ch).2.pending_trades
          = db.pending_trades ∧
      (monkey_trade db uid (some (mn, mx)) action code name price ad pi sd ch).2.monkey_sell_state
          = db.monkey_sell_state) ∧
    (usersetting_amount_ok mn mx = true →
      ¬((monkey_trade db uid (some (mn, mx)) action code name price ad pi sd ch).1
          = .invalidRange ∨
        (monkey_trade db uid (some (mn, mx)) action code name price ad pi sd ch).1
          = .rangeTooSmall)) := by
  have hne := monkey_dispatch_ne_range (db.get_user_settings uid).2 uid action code
    name price mn mx ad pi sd ch
  simp only [monkey_trade, hns]
  by_cases h1 : mn < 0 ∨ mx < 0 ∨ mx ≤ mn
  · rw [if_pos h1]
    refine ⟨⟨fun _ => by omega, fun _ => Or.inl rfl⟩, fun _ => ?_, fun hok => ?_⟩
    · exact ⟨(get_user_settings_fields db uid).1, (get_user_settings_fields db uid).2.1,
        (get_user_settings_fields db uid).2.2.1, (get_user_settings_fields db uid).2.2.2.1,
        (get_user_settings_fields db uid).2.2.2.2⟩
    · exact absurd ((usersetting_amount_ok_iff mn mx).mp hok) (by omega)
  · rw [if_neg h1]
    by_cases h2 : mx - mn < 1000
    · rw [if_pos h2]
      refine ⟨⟨fun _ => by omega, fun _ => Or.inr rfl⟩, fun _ => ?_, fun hok => ?_⟩
      · exact ⟨(get_user_settings_fields db uid).1, (get_user_settings_fields db uid).2.1,
          (get_user_settings_fields db uid).2.2.1, (get_user_settings_fields db uid).2.2.2.1,
          (get_user_settings_fields db uid).2.2.2.2⟩
      · exact absurd ((usersetting_amount_ok_iff mn mx).mp hok) (by omega)
    · rw [if_neg h2]
      have hrej : ¬((monkey_dispatch (db.get_user_settings uid).2 uid action code name
          price mn mx ad pi sd ch).1 = MonkeyOutcome.invalidRange ∨
          (monkey_dispatch (db.get_user_settings uid).2 uid action code name
          price mn mx ad pi sd ch).1 = MonkeyOutcome.rangeTooSmall) := by
        intro hAB
        rcases hAB with h | h
        · exact hne.1 h
        · exact hne.2 h
      refine ⟨⟨fun hAB => absurd hAB hrej, fun hcon => ?_⟩,
        fun hAB => absurd hAB hrej, fun _ => hrej⟩
      exact absurd (show 0 ≤ mn ∧ mn < mx ∧ 1000 ≤ mx - mn by omega) hcon

/-- C9 amended witness: the bounds (0, 500) are rejected by the auto-trade
validation on the empty store. -/
theorem C9_amended_bounds_validation_witness :
    (monkey_trade TradingDatabase.empty "u" (some (0, 500)) MonkeyAction.hold "c" "n"
        0 0 0 0 "ch").1 = .invalidRange ∨
    (monkey_trade TradingDatabase.empty "u" (some (0, 500)) MonkeyAction.hold "c" "n"
        0 0 0 0 "ch").1 = .rangeTooSmall :=
  (C9_amended_bounds_validation TradingDatabase.empty "u" 0 500 MonkeyAction.hold
    "c" "n" 0 0 0 0 "ch" (by decide)).1.mpr (by omega)

end MonkeyStock
